import Mathlib

/-!
Shallow embedding of the interactive control-flow core of the NEAR CLI
repository: the browser-assisted login flow (`src/commands/account/import_account/mod.rs`),
the add-access-key transaction-action builder
(`src/construct_transaction_command/transaction_actions/add_access_key_type/mod.rs`),
and the historical account view
(`src/commands/view_command/view_account/block_id/block_id_height/mod.rs`).

Interactive prompts are embedded as explicit oracle inputs (the values the
user would type, together with a trace of which prompts were shown), network
queries as `Except`-valued oracles, and the browser/open and persistence side
effects as explicit parameters and trace fields.
-/

namespace NearCli

/-- Ledger account identifier (`near_primitives::types::AccountId`);
its validating grammar is delegated to an external parser, so here it is the
validated string. -/
abbrev AccountId := String

/-- Rust `near_crypto::PublicKey`: an opaque key value carrying its canonical
string encoding. -/
structure PublicKey where
  canonical : String
deriving DecidableEq, Repr

/-- Rust `crate::common::KeyPairProperties`: the freshly generated key pair, with
the public half exposed as a canonical string. -/
structure KeyPairProperties where
  public_key_str : String
  secret_keypair_str : String
deriving DecidableEq, Repr

/-- Rust `near_primitives::types::Nonce` is `u64`; the builder performs no
arithmetic on it, so it is embedded as `Nat`. -/
abbrev Nonce := Nat

/-! ## Add-access-key action builder
(`construct_transaction_command/transaction_actions/add_access_key_type/mod.rs`) -/

/-- Modelled from the spec: the `function_call_type` module holding
`FunctionCallType` is not under `src/`; the spec's data model gives `FunctionCall { allowance: optional balance,
receiver_id: AccountId, method_names: ordered sequence of strings }`. -/
structure FunctionCallType where
  allowance : Option Nat
  receiver_id : AccountId
  method_names : List String
deriving DecidableEq, Repr

/-- Modelled from the spec: the `full_access_type` module holding
`FullAccessType` is not under `src/`; the spec's data model gives `FullAccess — no payload`. -/
structure FullAccessType where
deriving DecidableEq, Repr

/-- Modelled from the spec: `CliFunctionCallType` is not under `src/`; it is
the CLI-side mirror of `FunctionCallType` with every field optional (spec §6: "an optional partially-filled input structure
(mirroring its output structure but with every field optional)"). -/
structure CliFunctionCallType where
  allowance : Option Nat
  receiver_id : Option AccountId
  method_names : Option (List String)
deriving DecidableEq, Repr

/-- Modelled from the spec: `CliFullAccessType` is not under `src/`; it is
the CLI-side mirror of `FullAccessType`, which has no payload. -/
structure CliFullAccessType where
deriving DecidableEq, Repr

instance : Inhabited CliFunctionCallType := ⟨⟨none, none, none⟩⟩

instance : Inhabited CliFullAccessType := ⟨⟨⟩⟩

/-- Rust `enum AccessKeyPermission` (declaration order: `FunctionCallAction`
first, `FullAccessAction` second). -/
inductive AccessKeyPermission where
  | FunctionCallAction (function_call_type : FunctionCallType)
  | FullAccessAction (full_access_type : FullAccessType)
deriving DecidableEq, Repr

/-- Rust `enum CliAccessKeyPermission`. -/
inductive CliAccessKeyPermission where
  | FunctionCallAction (cli_function_call_type : CliFunctionCallType)
  | FullAccessAction (cli_full_access_type : CliFullAccessType)
deriving DecidableEq, Repr

/-- Rust `AccessKeyPermissionDiscriminants`, derived by `EnumDiscriminants` from
`AccessKeyPermission`, in the enum's declaration order. -/
inductive AccessKeyPermissionDiscriminants where
  | FunctionCallAction
  | FullAccessAction
deriving DecidableEq, Repr

/-- Rust `AccessKeyPermissionDiscriminants::iter()` (`EnumIter` yields the
variants in declaration order). -/
def AccessKeyPermissionDiscriminants.iter : List AccessKeyPermissionDiscriminants :=
  [.FunctionCallAction, .FullAccessAction]

/-- Rust `get_message()` of `EnumMessage`: the `strum(message = ...)` display
label attached to each variant. -/
def AccessKeyPermissionDiscriminants.get_message :
    AccessKeyPermissionDiscriminants → String
  | .FunctionCallAction => "A permission with function call"
  | .FullAccessAction => "A permission with full access"

/-- Rust `struct AddAccessKeyAction`: the fully resolved action value. -/
structure AddAccessKeyAction where
  public_key : PublicKey
  nonce : Nonce
  permission : AccessKeyPermission
deriving DecidableEq, Repr

/-- Rust `struct CliAddAccessKeyAction`: the partial CLI input, every field
optional. -/
structure CliAddAccessKeyAction where
  public_key : Option PublicKey
  nonce : Option Nonce
  permission : Option CliAccessKeyPermission
deriving DecidableEq, Repr

/-- One interactive prompt or menu shown during builder resolution, with the
menu entries when the prompt is a selection menu. -/
inductive PromptEvent where
  | publicKeyPrompt
  | noncePrompt
  | permissionMenu (labels : List String)
  | receiverIdPrompt
  | methodNamesPrompt
  | allowancePrompt
deriving DecidableEq, Repr

/-- The answers the interactive user would give to each prompt of the
builder. `public_key_inputs` is the sequence of raw strings typed at the
public-key prompt (the prompt re-asks on parse failure); the other prompts
are typed by `dialoguer` and yield already-validated values. -/
structure PromptEnv where
  public_key_inputs : List String
  nonce : Nonce
  permission_index : Fin 2
  receiver_id : AccountId
  method_names : List String
  allowance : Option Nat
deriving DecidableEq, Repr

/-- The prompt stream closed or errored: `interact_text()` returned an
I/O error (terminal for the resolution). -/
inductive IOError where
  | streamClosed
deriving DecidableEq, Repr

/-- Rust `AddAccessKeyAction::input_public_key`: `dialoguer::Input<PublicKey>`
reads a line, parses it with the delegated `FromStr` parser, re-prompts on
parse failure, and returns the first successfully parsed key; exhaustion of
the input stream is the terminal I/O error. -/
def AddAccessKeyAction.input_public_key (parse : String → Option PublicKey) :
    List String → Except IOError PublicKey
  | [] => .error .streamClosed
  | s :: rest =>
    match parse s with
    | some pk => .ok pk
    | none => AddAccessKeyAction.input_public_key parse rest

/-- Rust `AccessKeyPermission::choose_permission`: builds the menu of variant
display labels from `AccessKeyPermissionDiscriminants::iter()`, shows it,
and wraps the selected discriminant around `Default::default()` CLI data. -/
def AccessKeyPermission.choose_permission (select_permission : Fin 2) :
    CliAccessKeyPermission × List PromptEvent :=
  let variants := AccessKeyPermissionDiscriminants.iter
  let permissions := variants.map AccessKeyPermissionDiscriminants.get_message
  let chosen := variants.get (Fin.cast (by decide) select_permission)
  (match chosen with
    | AccessKeyPermissionDiscriminants.FunctionCallAction =>
        CliAccessKeyPermission.FunctionCallAction default
    | AccessKeyPermissionDiscriminants.FullAccessAction =>
        CliAccessKeyPermission.FullAccessAction default,
   [PromptEvent.permissionMenu permissions])

/-- Modelled from the spec: `From<CliFunctionCallType> for FunctionCallType`
is in the missing `function_call_type` module; spec §4.5 resolves each field from the supplied value if present, otherwise
by prompting (`receiver_id` validated as an AccountId, `method_names` a
sequence where empty is valid, `allowance` optional with absent meaning
unlimited). -/
def FunctionCallType.from_cli (env : PromptEnv) (item : CliFunctionCallType) :
    FunctionCallType × List PromptEvent :=
  let (receiver_id, e₁) :=
    match item.receiver_id with
    | some r => (r, [])
    | none => (env.receiver_id, [PromptEvent.receiverIdPrompt])
  let (method_names, e₂) :=
    match item.method_names with
    | some ms => (ms, [])
    | none => (env.method_names, [PromptEvent.methodNamesPrompt])
  let (allowance, e₃) :=
    match item.allowance with
    | some a => (some a, [])
    | none => (env.allowance, [PromptEvent.allowancePrompt])
  (⟨allowance, receiver_id, method_names⟩, e₁ ++ e₂ ++ e₃)

/-- Modelled from the spec: `From<CliFullAccessType> for FullAccessType` is
in the missing `full_access_type` module; the variant has no payload, so
nothing is prompted. -/
def FullAccessType.from_cli (_env : PromptEnv) (_item : CliFullAccessType) :
    FullAccessType × List PromptEvent :=
  (⟨⟩, [])

/-- Rust `From<CliAccessKeyPermission> for AccessKeyPermission`: dispatch to the
variant's own conversion. -/
def AccessKeyPermission.from_cli (env : PromptEnv) :
    CliAccessKeyPermission → AccessKeyPermission × List PromptEvent
  | .FunctionCallAction cli_function_call_type =>
    let (function_call_type, es) := FunctionCallType.from_cli env cli_function_call_type
    (.FunctionCallAction function_call_type, es)
  | .FullAccessAction cli_full_access_type =>
    let (full_access_type, es) := FullAccessType.from_cli env cli_full_access_type
    (.FullAccessAction full_access_type, es)

/-- Rust `From<CliAddAccessKeyAction> for AddAccessKeyAction`: each of
`public_key`, `nonce`, `permission` is taken from the partial input when
supplied and prompted for when absent; the (possibly menu-chosen) CLI
permission is then resolved by `AccessKeyPermission::from`. -/
def AddAccessKeyAction.from_cli (parse : String → Option PublicKey)
    (env : PromptEnv) (item : CliAddAccessKeyAction) :
    Except IOError (AddAccessKeyAction × List PromptEvent) := do
  let (public_key, e₁) ←
    match item.public_key with
    | some cli_public_key => Except.ok (cli_public_key, ([] : List PromptEvent))
    | none => do
      let pk ← AddAccessKeyAction.input_public_key parse env.public_key_inputs
      Except.ok (pk, [PromptEvent.publicKeyPrompt])
  let (nonce, e₂) :=
    match item.nonce with
    | some cli_nonce => (cli_nonce, ([] : List PromptEvent))
    | none => (env.nonce, [PromptEvent.noncePrompt])
  let (cli_permission, e₃) :=
    match item.permission with
    | some cli_permission => (cli_permission, ([] : List PromptEvent))
    | none => AccessKeyPermission.choose_permission env.permission_index
  let (permission, e₄) := AccessKeyPermission.from_cli env cli_permission
  Except.ok (⟨public_key, nonce, permission⟩, e₁ ++ e₂ ++ e₃ ++ e₄)

/-! ## Login flow (`commands/account/import_account/mod.rs`) -/

/-- A `url::Url` reduced to the parts the login flow touches: the
scheme-authority-path string and the ordered query pairs. -/
structure Url where
  path : String
  query : List (String × String)
deriving DecidableEq, Repr

/-- The prefix of `s` up to and including its last `/` (RFC 3986 merge of a
relative reference onto a base path, as `url::Url::join` performs for a
relative input such as `"login/"`). -/
def dropAfterLastSlash (s : String) : String :=
  ⟨(s.toList.reverse.dropWhile (fun c => c ≠ '/')).reverse⟩

/-- Rust `url::Url::join` with a relative path input: merge the input onto the
base path and clear the query. -/
def Url.join (u : Url) (input : String) : Url :=
  { path := dropAfterLastSlash u.path ++ input, query := [] }

/-- Rust `Url::query_pairs_mut().append_pair`: appends one key-value pair to the
query. -/
def Url.append_pair (u : Url) (k v : String) : Url :=
  { u with query := u.query ++ [(k, v)] }

/-- Rust `crate::config::NetworkConfig` reduced to the field `login` reads. -/
structure NetworkConfig where
  wallet_url : Url
deriving DecidableEq, Repr

/-- The authorization URL built by `login` (lines 25-30): join `"login/"`
onto the wallet URL, then append the `title` and `public_key` query pairs;
the commented-out `success_url` pair is not appended. -/
def build_login_url (wallet_url : Url) (public_key_str : String) : Url :=
  ((wallet_url.join "login/").append_pair "title" "NEAR CLI").append_pair
    "public_key" public_key_str

/-- Rust `crate::common::verify_account_access_key`'s error
(`VerificationError` in the spec): the key is absent / account unknown, or
the query could not be completed. -/
inductive VerificationError where
  | notFound
  | transport
deriving DecidableEq, Repr

/-- Rust `enum ConfirmOptions` of the login loop. -/
inductive ConfirmOptions where
  | yes
  | no
deriving DecidableEq, Repr

/-- The `strum(to_string = ...)` labels of `ConfirmOptions`, in the order the
`Select` menu lists them (`vec![Yes, No]`). -/
def confirm_options_labels : List String :=
  ["Yes, I want to re-enter the account_id.",
   "No, I want to save the access key information."]

/-- One pass through the login loop's interactive inputs: the account id the
user types, and the answer they would give to the not-verified confirm menu
(consulted only when verification fails). -/
structure LoginIteration where
  account_id : AccountId
  choice : ConfirmOptions
deriving DecidableEq, Repr

/-- Outcome of the login loop (lines 41-71): the account id it broke out
with (`none` when the input script is exhausted, i.e. the prompt stream
closed), the arguments of every `verify_account_access_key` call in order,
the account ids entered in order, and every confirm menu shown (as its list
of option labels). -/
structure LoopOutcome where
  result : Option AccountId
  verify_calls : List (AccountId × PublicKey)
  entered_ids : List AccountId
  confirm_menus : List (List String)
deriving DecidableEq, Repr

/-- The `loop` of `login` (lines 41-71): read an account id, verify it; on
success break with it; on error show the two-option confirm menu and either
break with the same id (`No`) or loop (`Yes`). -/
def loginLoop (verify : AccountId → PublicKey → Except VerificationError Unit)
    (public_key : PublicKey) : List LoginIteration → LoopOutcome
  | [] => ⟨none, [], [], []⟩
  | e :: rest =>
    match verify e.account_id public_key with
    | .ok _ => ⟨some e.account_id, [(e.account_id, public_key)], [e.account_id], []⟩
    | .error _ =>
      match e.choice with
      | .no =>
        ⟨some e.account_id, [(e.account_id, public_key)], [e.account_id],
         [confirm_options_labels]⟩
      | .yes =>
        let o := loginLoop verify public_key rest
        ⟨o.result, (e.account_id, public_key) :: o.verify_calls,
         e.account_id :: o.entered_ids, confirm_options_labels :: o.confirm_menus⟩

/-- Rust `target_os` capability relevant to `save_access_key`: whether the host
offers the native (macOS) secure keychain. -/
inductive Platform where
  | macos
  | other
deriving DecidableEq, Repr

/-- The credential handed to a storage backend: the account id and key pair
(the network and credentials directory are folded into the backend
oracles). -/
structure Credential where
  account_id : AccountId
  key_pair : KeyPairProperties
deriving DecidableEq, Repr

/-- The two option labels of the macOS keychain selection menu, in the order
of `vec![macos_keychain, legacy_keychain]`. -/
def keychain_menu_labels : List String :=
  ["Store the access key in my macOS keychain",
   "Store the access key in my legacy keychain (compatible with the old near CLI)"]

/-- Rust `save_access_key` (lines 86-129): on macOS show the keychain selection
menu and dispatch to the selected backend; on every other platform use the
file-based legacy keychain unconditionally with no menu. A backend error is
wrapped in a message carrying the underlying cause. Returns the storage
confirmation message together with the menus shown. -/
def save_access_key (platform : Platform) (selection : Fin 2)
    (macos_backend : Credential → Except String String)
    (file_backend : Credential → Except String String)
    (account_id : AccountId) (key_pair_properties : KeyPairProperties) :
    Except String (String × List (List String)) :=
  let cred : Credential := ⟨account_id, key_pair_properties⟩
  match platform with
  | .macos =>
    if selection.val = 0 then
      match macos_backend cred with
      | .error err =>
        .error ("Failed to save the access key to the keychain: " ++ err)
      | .ok storage_message => .ok (storage_message, [keychain_menu_labels])
    else
      match file_backend cred with
      | .error err => .error ("Failed to save a file with access key: " ++ err)
      | .ok storage_message => .ok (storage_message, [keychain_menu_labels])
  | .other =>
    match file_backend cred with
    | .error err => .error ("Failed to save a file with access key: " ++ err)
    | .ok storage_message => .ok (storage_message, [])

/-- The ways `login` aborts: entropy source unavailable
(`generate_keypair()?`), the canonical public key failed to re-parse
(`PublicKey::from_str(...)?`), the account-id prompt stream closed
(`input_account_id()?`), or the store backend failed
(`save_access_key(...)?`). -/
inductive LoginError where
  | entropyUnavailable
  | publicKeyParseFailed
  | inputClosed
  | storeFailed (message : String)
deriving DecidableEq, Repr

/-- Everything observable about one completed `login` run. -/
structure LoginTrace where
  keys_generated : Nat
  key_pair : KeyPairProperties
  url : Url
  verify_calls : List (AccountId × PublicKey)
  entered_ids : List AccountId
  confirm_menus : List (List String)
  persisted : Credential
  storage_message : String
  storage_menus : List (List String)
deriving DecidableEq, Repr

/-- Rust `login` (lines 19-80): generate one key pair, build the authorization
URL, print it and best-effort open the browser (`open::that(url).ok()` —
`browser_open_ok` is discarded), re-parse the canonical public key, run the
verification loop, and hand the resulting account id with the key pair to
`save_access_key`. `keygen` is the stream of fresh pairs the entropy source
would produce; the trace records how many were consumed. -/
def login (keygen : List KeyPairProperties) (network_config : NetworkConfig)
    (browser_open_ok : Bool)
    (parse : String → Except String PublicKey)
    (verify : AccountId → PublicKey → Except VerificationError Unit)
    (events : List LoginIteration)
    (platform : Platform) (selection : Fin 2)
    (macos_backend : Credential → Except String String)
    (file_backend : Credential → Except String String) :
    Except LoginError LoginTrace :=
  match keygen with
  | [] => .error .entropyUnavailable
  | key_pair_properties :: _ =>
    let url := build_login_url network_config.wallet_url
      key_pair_properties.public_key_str
    let _ := browser_open_ok
    match parse key_pair_properties.public_key_str with
    | .error _ => .error .publicKeyParseFailed
    | .ok public_key =>
      let o := loginLoop verify public_key events
      match o.result with
      | none => .error .inputClosed
      | some account_id =>
        match save_access_key platform selection macos_backend file_backend
            account_id key_pair_properties with
        | .error e => .error (.storeFailed e)
        | .ok (storage_message, storage_menus) =>
          .ok ⟨1, key_pair_properties, url, o.verify_calls, o.entered_ids,
               o.confirm_menus, ⟨account_id, key_pair_properties⟩,
               storage_message, storage_menus⟩

/-! ## Historical account view
(`commands/view_command/view_account/block_id/block_id_height/mod.rs`) -/

/-- Rust `near_primitives::types::BlockHeight` is `u64`; embedded as `Nat`. -/
abbrev BlockHeight := Nat

/-- Rust `struct CliBlockIdHeight`: the optional CLI-side block height. -/
structure CliBlockIdHeight where
  block_id_height : Option BlockHeight
deriving DecidableEq, Repr

/-- Rust `struct BlockIdHeight`: the resolved block height. -/
structure BlockIdHeight where
  block_id_height : BlockHeight
deriving DecidableEq, Repr

/-- Rust `From<BlockIdHeight> for CliBlockIdHeight` (lines 24-30): always wraps
the height in `Some`. -/
def CliBlockIdHeight.from_resolved (block_id_height : BlockIdHeight) :
    CliBlockIdHeight :=
  ⟨some block_id_height.block_id_height⟩

/-- Rust `From<CliBlockIdHeight> for BlockIdHeight` (lines 32-40): use the
supplied height if present, otherwise prompt (`input_block_id_height`);
the Boolean records whether the prompt ran. -/
def BlockIdHeight.from_cli (prompted_height : BlockHeight)
    (item : CliBlockIdHeight) : BlockIdHeight × Bool :=
  match item.block_id_height with
  | some cli_block_id_hash => (⟨cli_block_id_hash⟩, false)
  | none => (⟨prompted_height⟩, true)

/-- Rust `AccountView` reduced to the fields `display_account_info` reads. -/
structure AccountView where
  amount : Nat
  locked : Nat
  storage_usage : Nat
  code_hash : String
deriving DecidableEq, Repr

/-- One entry of `AccessKeyList` as far as the display reads it. -/
structure AccessKeyInfoView where
  public_key_str : String
  nonce : Nonce
deriving DecidableEq, Repr

/-- Rust `QueryResponseKind`: the discriminated response kinds this view
consumes, plus the other kinds it must reject. -/
inductive QueryResponseKind where
  | ViewAccount (account_view : AccountView)
  | AccessKeyList (keys : List AccessKeyInfoView)
  | OtherKind
deriving DecidableEq, Repr

/-- Rust `RpcQueryResponse` reduced to the fields the displays read. -/
structure QueryResponse where
  kind : QueryResponseKind
  block_height : BlockHeight
  block_hash : String
deriving DecidableEq, Repr

/-- Rust `BlockIdHeight::display_account_info` (lines 66-118): an RPC-layer
failure is wrapped in a message naming the view-account query; a success of
any kind other than `ViewAccount` becomes the `Error call result` error;
otherwise the account view is displayed (returned). -/
def BlockIdHeight.display_account_info
    (rpc_result : Except String QueryResponse) : Except String AccountView :=
  match rpc_result with
  | .error err => .error ("Failed to fetch query for view account: " ++ err)
  | .ok query_view_method_response =>
    match query_view_method_response.kind with
    | .ViewAccount result => .ok result
    | _ => .error "Error call result"

/-- Rust `BlockIdHeight::display_access_key_list` (lines 120-184): an RPC-layer
failure is wrapped in a message naming the view-key-list query; a success of
any kind other than `AccessKeyList` becomes the `Error call result` error;
otherwise the key list is displayed (returned). -/
def BlockIdHeight.display_access_key_list
    (rpc_result : Except String QueryResponse) :
    Except String (List AccessKeyInfoView) :=
  match rpc_result with
  | .error err => .error ("Failed to fetch query for view key list: " ++ err)
  | .ok query_view_method_response =>
    match query_view_method_response.kind with
    | .AccessKeyList result => .ok result
    | _ => .error "Error call result"

/-! ## Helper lemmas -/

/-- The login loop issues exactly one verification call per account id
entered, with the same public key every time. -/
theorem loginLoop_verify_calls_eq
    (verify : AccountId → PublicKey → Except VerificationError Unit)
    (public_key : PublicKey) (events : List LoginIteration) :
    (loginLoop verify public_key events).verify_calls =
      (loginLoop verify public_key events).entered_ids.map
        (fun id => (id, public_key)) := by
  induction events with
  | nil => rfl
  | cons e rest ih =>
    simp only [loginLoop]
    cases verify e.account_id public_key with
    | ok u => rfl
    | error err =>
      cases e.choice with
      | no => rfl
      | yes => simp [ih]

/-- Every confirm menu the login loop shows carries exactly the two
`ConfirmOptions` labels. -/
theorem loginLoop_confirm_menus_eq
    (verify : AccountId → PublicKey → Except VerificationError Unit)
    (public_key : PublicKey) (events : List LoginIteration) :
    ∀ m ∈ (loginLoop verify public_key events).confirm_menus,
      m = confirm_options_labels := by
  induction events with
  | nil => intro m hm; cases hm
  | cons e rest ih =>
    simp only [loginLoop]
    cases verify e.account_id public_key with
    | ok u => intro m hm; cases hm
    | error err =>
      cases e.choice with
      | no =>
        intro m hm
        simp only [List.mem_singleton] at hm
        exact hm
      | yes =>
        intro m hm
        simp only [List.mem_cons] at hm
        rcases hm with h | h
        · exact h
        · exact ih m h

/-- The login loop never verifies without a fresh account-id entry, and
every verification after the first happens only after a confirm menu was
answered: the number of verification calls exceeds the number of menus
shown by at most one. -/
theorem loginLoop_verify_calls_le
    (verify : AccountId → PublicKey → Except VerificationError Unit)
    (public_key : PublicKey) (events : List LoginIteration) :
    (loginLoop verify public_key events).verify_calls.length ≤
      (loginLoop verify public_key events).confirm_menus.length + 1 := by
  induction events with
  | nil => simp [loginLoop]
  | cons e rest ih =>
    simp only [loginLoop]
    cases verify e.account_id public_key with
    | ok u => simp
    | error err =>
      cases e.choice with
      | no => simp
      | yes => simpa using Nat.succ_le_succ ih

/-! ## Claim theorems -/

/-- C3: each of the three fields of the add-access-key builder is taken
verbatim from the partial input when supplied and prompted for only when
absent; a fully specified input such as a valid public key, nonce 5 and
`FullAccess` resolves to exactly those field values with no prompt
performed. -/
theorem addAccessKeyAction_fields_verbatim_when_supplied
    (parse : String → Option PublicKey) (env : PromptEnv) (pk : PublicKey)
    (n : Nonce) (perm : CliAccessKeyPermission) (fa : CliFullAccessType) :
    AddAccessKeyAction.from_cli parse env ⟨some pk, some n, some perm⟩ =
      Except.ok (⟨pk, n, (AccessKeyPermission.from_cli env perm).1⟩,
        (AccessKeyPermission.from_cli env perm).2) ∧
    AddAccessKeyAction.from_cli parse env
        ⟨some pk, some n, some (.FullAccessAction fa)⟩ =
      Except.ok (⟨pk, n, .FullAccessAction ⟨⟩⟩, []) ∧
    AddAccessKeyAction.from_cli parse env
        ⟨some pk, none, some (.FullAccessAction fa)⟩ =
      Except.ok (⟨pk, env.nonce, .FullAccessAction ⟨⟩⟩,
        [PromptEvent.noncePrompt]) ∧
    AddAccessKeyAction.from_cli parse env
        ⟨none, some n, some (.FullAccessAction fa)⟩ =
      (AddAccessKeyAction.input_public_key parse env.public_key_inputs).map
        (fun k => (⟨k, n, .FullAccessAction ⟨⟩⟩,
          [PromptEvent.publicKeyPrompt])) := by
  refine ⟨rfl, rfl, rfl, ?_⟩
  cases h : AddAccessKeyAction.input_public_key parse env.public_key_inputs with
  | ok k =>
    simp only [AddAccessKeyAction.from_cli, h, Except.map]
    rfl
  | error err =>
    simp only [AddAccessKeyAction.from_cli, h, Except.map]
    rfl

/-- C4: when the permission variant is unspecified, `choose_permission`
shows the menu of variant display labels in the declared order
(FunctionCall-restricted first, FullAccess second), and the chosen variant
is then resolved starting from an all-default partial input, so every
sub-field of the chosen variant is prompted. -/
theorem choose_permission_menu_order_and_default_recursion
    (idx : Fin 2) (env : PromptEnv) :
    (AccessKeyPermission.choose_permission idx).2 =
      [PromptEvent.permissionMenu
        (AccessKeyPermissionDiscriminants.iter.map
          AccessKeyPermissionDiscriminants.get_message)] ∧
    AccessKeyPermissionDiscriminants.iter.map
        AccessKeyPermissionDiscriminants.get_message =
      ["A permission with function call", "A permission with full access"] ∧
    (AccessKeyPermission.choose_permission (0 : Fin 2)).1 =
      .FunctionCallAction default ∧
    (AccessKeyPermission.choose_permission (1 : Fin 2)).1 =
      .FullAccessAction default ∧
    AccessKeyPermission.from_cli env (.FunctionCallAction default) =
      (.FunctionCallAction ⟨env.allowance, env.receiver_id, env.method_names⟩,
       [PromptEvent.receiverIdPrompt, PromptEvent.methodNamesPrompt,
        PromptEvent.allowancePrompt]) ∧
    AccessKeyPermission.from_cli env (.FullAccessAction default) =
      (.FullAccessAction ⟨⟩, []) :=
  ⟨rfl, rfl, rfl, rfl, rfl, rfl⟩

/-- C5: a malformed entry at the public-key prompt triggers a re-prompt
(the resolution on the remaining inputs), a successfully returned key always
came from an input the delegated parser accepted (malformed input is never
passed through), and the prompt resolution is total: it yields a parsed key
or the terminal stream-closed error, never a parse panic. -/
theorem input_public_key_reprompts_on_malformed
    (parse : String → Option PublicKey) (s : String)
    (inputs : List String) :
    (parse s = none →
      AddAccessKeyAction.input_public_key parse (s :: inputs) =
        AddAccessKeyAction.input_public_key parse inputs) ∧
    (∀ pk, AddAccessKeyAction.input_public_key parse inputs = .ok pk →
      ∃ t ∈ inputs, parse t = some pk) ∧
    ((∃ pk, AddAccessKeyAction.input_public_key parse inputs = .ok pk) ∨
      AddAccessKeyAction.input_public_key parse inputs =
        .error .streamClosed) := by
  refine ⟨fun h => by simp [AddAccessKeyAction.input_public_key, h], ?_, ?_⟩
  · intro pk
    induction inputs with
    | nil => intro h; cases h
    | cons t rest ih =>
      simp only [AddAccessKeyAction.input_public_key]
      cases ht : parse t with
      | some q =>
        intro h
        cases h
        exact ⟨t, by simp, ht⟩
      | none =>
        intro h
        obtain ⟨u, hu, hparse⟩ := ih h
        exact ⟨u, by simp [hu], hparse⟩
  · induction inputs with
    | nil => exact Or.inr rfl
    | cons t rest ih =>
      simp only [AddAccessKeyAction.input_public_key]
      cases ht : parse t with
      | some q => exact Or.inl ⟨q, rfl⟩
      | none => exact ih

/-- C5 witness: with a parser accepting only `"ed25519:ok"`, the malformed
first entry is skipped by a re-prompt and the resolution returns the parsed
second entry. -/
theorem input_public_key_reprompts_on_malformed_witness :
    (AddAccessKeyAction.input_public_key
        (fun s => if s = "ed25519:ok" then some ⟨s⟩ else none)
        ["bad", "ed25519:ok"] =
      AddAccessKeyAction.input_public_key
        (fun s => if s = "ed25519:ok" then some ⟨s⟩ else none)
        ["ed25519:ok"]) ∧
    ∃ t ∈ ["bad", "ed25519:ok"],
      (fun s => if s = "ed25519:ok" then some ⟨s⟩ else none) t =
        some (⟨"ed25519:ok"⟩ : PublicKey) :=
  ⟨(input_public_key_reprompts_on_malformed
      (fun s => if s = "ed25519:ok" then some ⟨s⟩ else none) "bad"
      ["ed25519:ok"]).1 (by decide),
   (input_public_key_reprompts_on_malformed
      (fun s => if s = "ed25519:ok" then some ⟨s⟩ else none) "x"
      ["bad", "ed25519:ok"]).2.1 ⟨"ed25519:ok"⟩ (by rfl)⟩

/-- C9: converting a resolved block height to its CLI representation and
back is the identity and never invokes the interactive prompt, because the
CLI value produced from a resolved one always has its optional field
populated. -/
theorem blockIdHeight_roundtrip_no_prompt (h : BlockHeight)
    (prompted : BlockHeight) :
    BlockIdHeight.from_cli prompted (CliBlockIdHeight.from_resolved ⟨h⟩) =
      (⟨h⟩, false) := rfl

/-- C8: an RPC-layer failure of either historical-view query is surfaced
immediately as an error whose message names the failing query's purpose
(and the two messages are distinct for the same underlying cause), and a
successful response of the wrong kind is turned into an error rather than
accepted. -/
theorem display_queries_name_failing_purpose (err : String)
    (resp : QueryResponse) :
    BlockIdHeight.display_account_info (.error err) =
      .error ("Failed to fetch query for view account: " ++ err) ∧
    BlockIdHeight.display_access_key_list (.error err) =
      .error ("Failed to fetch query for view key list: " ++ err) ∧
    ("Failed to fetch query for view account: " ++ err ≠
      "Failed to fetch query for view key list: " ++ err) ∧
    ((∀ a, resp.kind ≠ .ViewAccount a) →
      BlockIdHeight.display_account_info (.ok resp) =
        .error "Error call result") ∧
    ((∀ ks, resp.kind ≠ .AccessKeyList ks) →
      BlockIdHeight.display_access_key_list (.ok resp) =
        .error "Error call result") := by
  refine ⟨rfl, rfl, ?_, ?_, ?_⟩
  · intro hcontr
    have hdata := congrArg String.data hcontr
    simp only [String.data_append] at hdata
    exact absurd (List.append_cancel_right hdata) (by decide)
  · intro hkind
    cases hk : resp.kind with
    | ViewAccount a => exact absurd hk (hkind a)
    | AccessKeyList ks => simp [BlockIdHeight.display_account_info, hk]
    | OtherKind => simp [BlockIdHeight.display_account_info, hk]
  · intro hkind
    cases hk : resp.kind with
    | ViewAccount a => simp [BlockIdHeight.display_access_key_list, hk]
    | AccessKeyList ks => exact absurd hk (hkind ks)
    | OtherKind => simp [BlockIdHeight.display_access_key_list, hk]

/-- C8 witness: at the concrete cause `"timeout"` and a mismatched-kind
response the two queries produce their distinct purpose-naming errors and
the wrong-kind error. -/
theorem display_queries_name_failing_purpose_witness :
    (∀ a, (QueryResponse.mk .OtherKind 0 "h").kind ≠ .ViewAccount a) ∧
    BlockIdHeight.display_account_info (.ok ⟨.OtherKind, 0, "h"⟩) =
      .error "Error call result" ∧
    BlockIdHeight.display_access_key_list (.error "timeout") =
      .error "Failed to fetch query for view key list: timeout" := by
  refine ⟨?_, ?_, ?_⟩
  · intro a h
    cases h
  · exact (display_queries_name_failing_purpose "timeout"
      ⟨.OtherKind, 0, "h"⟩).2.2.2.1 (fun a h => by cases h)
  · exact (display_queries_name_failing_purpose "timeout"
      ⟨.OtherKind, 0, "h"⟩).2.1

/-- C7: credential persistence selects its backend by platform — on a
platform without a native keychain the file-based store is used
unconditionally with no menu, on macOS the two-option keychain menu is
shown and the selected backend used — and a backend failure is surfaced as
an error carrying the underlying cause. -/
theorem save_access_key_backend_selection (selection : Fin 2)
    (macos_backend file_backend : Credential → Except String String)
    (account_id : AccountId) (kp : KeyPairProperties) (msg err : String) :
    (file_backend ⟨account_id, kp⟩ = .ok msg →
      save_access_key .other selection macos_backend file_backend account_id
        kp = .ok (msg, [])) ∧
    (file_backend ⟨account_id, kp⟩ = .error err →
      save_access_key .other selection macos_backend file_backend account_id
        kp = .error ("Failed to save a file with access key: " ++ err)) ∧
    keychain_menu_labels.length = 2 ∧
    (∀ res menus,
      save_access_key .macos selection macos_backend file_backend account_id
        kp = .ok (res, menus) → menus = [keychain_menu_labels]) ∧
    (selection.val = 0 → macos_backend ⟨account_id, kp⟩ = .ok msg →
      save_access_key .macos selection macos_backend file_backend account_id
        kp = .ok (msg, [keychain_menu_labels])) ∧
    (selection.val = 0 → macos_backend ⟨account_id, kp⟩ = .error err →
      save_access_key .macos selection macos_backend file_backend account_id
        kp = .error ("Failed to save the access key to the keychain: " ++ err)) ∧
    (selection.val ≠ 0 → file_backend ⟨account_id, kp⟩ = .error err →
      save_access_key .macos selection macos_backend file_backend account_id
        kp = .error ("Failed to save a file with access key: " ++ err)) := by
  refine ⟨?_, ?_, rfl, ?_, ?_, ?_, ?_⟩
  · intro hfb; simp [save_access_key, hfb]
  · intro hfb; simp [save_access_key, hfb]
  · intro res menus hok
    simp only [save_access_key] at hok
    by_cases hsel : selection.val = 0
    · simp only [hsel, if_true] at hok
      cases hmb : macos_backend ⟨account_id, kp⟩ with
      | ok m => rw [hmb] at hok; cases hok; rfl
      | error e => rw [hmb] at hok; cases hok
    · simp only [if_neg hsel] at hok
      cases hfb : file_backend ⟨account_id, kp⟩ with
      | ok m => rw [hfb] at hok; cases hok; rfl
      | error e => rw [hfb] at hok; cases hok
  · intro hsel hmb; simp [save_access_key, hsel, hmb]
  · intro hsel hmb; simp [save_access_key, hsel, hmb]
  · intro hsel hfb; simp [save_access_key, hsel, hfb]

/-- C7 witness: on a non-macOS platform the file store is used with no menu,
and a failing macOS keychain backend surfaces its cause in the error. -/
theorem save_access_key_backend_selection_witness :
    save_access_key .other (1 : Fin 2) (fun _ => Except.ok "mac")
      (fun _ => Except.ok "file saved") "alice.testnet" ⟨"pk", "sk"⟩ =
      .ok ("file saved", []) ∧
    save_access_key .macos (0 : Fin 2) (fun _ => Except.error "denied")
      (fun _ => Except.ok "file saved") "alice.testnet" ⟨"pk", "sk"⟩ =
      .error ("Failed to save the access key to the keychain: " ++ "denied") :=
  ⟨(save_access_key_backend_selection (1 : Fin 2) (fun _ => Except.ok "mac")
      (fun _ => Except.ok "file saved") "alice.testnet" ⟨"pk", "sk"⟩
      "file saved" "denied").1 rfl,
   (save_access_key_backend_selection (0 : Fin 2) (fun _ => Except.error "denied")
      (fun _ => Except.ok "file saved") "alice.testnet" ⟨"pk", "sk"⟩
      "file saved" "denied").2.2.2.2.2.1 rfl rfl⟩

/-- C1: in the login verification loop, a successful verification proceeds
directly to persistence with the entered account id (no confirm menu); a
failed verification presents exactly the two-choice menu, and choosing
"save anyway" breaks out with exactly the account id that was entered,
reaching persistence without aborting and without substituting another
id. -/
theorem login_loop_success_or_two_choice_save_anyway
    (verify : AccountId → PublicKey → Except VerificationError Unit)
    (public_key : PublicKey) (id : AccountId) (choice : ConfirmOptions)
    (e : VerificationError) (rest events : List LoginIteration)
    (kp : KeyPairProperties) (kgrest : List KeyPairProperties)
    (net : NetworkConfig) (bo : Bool)
    (parse : String → Except String PublicKey)
    (platform : Platform) (selection : Fin 2)
    (mb fb : Credential → Except String String) :
    (verify id public_key = .ok () →
      loginLoop verify public_key (⟨id, choice⟩ :: rest) =
        ⟨some id, [(id, public_key)], [id], []⟩) ∧
    confirm_options_labels.length = 2 ∧
    (∀ m ∈ (loginLoop verify public_key events).confirm_menus,
      m = confirm_options_labels) ∧
    (verify id public_key = .error e →
      loginLoop verify public_key (⟨id, .no⟩ :: rest) =
        ⟨some id, [(id, public_key)], [id], [confirm_options_labels]⟩) ∧
    (parse kp.public_key_str = .ok public_key →
      verify id public_key = .error e →
      ∀ msg menus,
        save_access_key platform selection mb fb id kp = .ok (msg, menus) →
        ∃ tr, login (kp :: kgrest) net bo parse verify (⟨id, .no⟩ :: rest)
            platform selection mb fb = .ok tr ∧
          tr.persisted.account_id = id ∧ tr.persisted.key_pair = kp) ∧
    (parse kp.public_key_str = .ok public_key →
      verify id public_key = .ok () →
      ∀ msg menus,
        save_access_key platform selection mb fb id kp = .ok (msg, menus) →
        ∃ tr, login (kp :: kgrest) net bo parse verify (⟨id, choice⟩ :: rest)
            platform selection mb fb = .ok tr ∧
          tr.persisted.account_id = id ∧ tr.persisted.key_pair = kp) := by
  refine ⟨?_, rfl, loginLoop_confirm_menus_eq verify public_key events,
    ?_, ?_, ?_⟩
  · intro hv
    simp [loginLoop, hv]
  · intro hv
    simp [loginLoop, hv]
  · intro hparse hv msg menus hsave
    refine ⟨⟨1, kp, build_login_url net.wallet_url kp.public_key_str,
      [(id, public_key)], [id], [confirm_options_labels], ⟨id, kp⟩, msg,
      menus⟩, ?_, rfl, rfl⟩
    simp [login, hparse, loginLoop, hv, hsave]
  · intro hparse hv msg menus hsave
    refine ⟨⟨1, kp, build_login_url net.wallet_url kp.public_key_str,
      [(id, public_key)], [id], [], ⟨id, kp⟩, msg, menus⟩, ?_, rfl, rfl⟩
    simp [login, hparse, loginLoop, hv, hsave]

/-- C1 witness: a login whose only verification attempt returns `NotFound`
and where the user answers "save anyway" persists exactly the entered
account id. -/
theorem login_loop_success_or_two_choice_save_anyway_witness :
    ∃ tr, login [⟨"ed25519:AA", "sk"⟩] ⟨⟨"https://wallet/", []⟩⟩ true
        (fun s => Except.ok ⟨s⟩) (fun _ _ => Except.error .notFound)
        [⟨"alice.testnet", .no⟩] .other (1 : Fin 2)
        (fun _ => Except.ok "mac") (fun _ => Except.ok "saved") =
      Except.ok tr ∧
      tr.persisted.account_id = "alice.testnet" ∧
      tr.persisted.key_pair = ⟨"ed25519:AA", "sk"⟩ :=
  (login_loop_success_or_two_choice_save_anyway
    (fun _ _ => Except.error .notFound) ⟨"ed25519:AA"⟩ "alice.testnet" .no
    .notFound [] [] ⟨"ed25519:AA", "sk"⟩ [] ⟨⟨"https://wallet/", []⟩⟩ true
    (fun s => Except.ok ⟨s⟩) .other (1 : Fin 2) (fun _ => Except.ok "mac")
    (fun _ => Except.ok "saved")).2.2.2.2.1 rfl rfl "saved" [] rfl

/-- C2: the authorization URL is the wallet base URL joined with `login/`
carrying exactly the two query parameters `title` (the fixed product label)
and `public_key` (the canonical key string), with no `success_url`
parameter; and the browser-open side effect is best-effort — the login flow
is unchanged whether opening succeeds or fails. -/
theorem login_url_exactly_two_query_params (w : Url) (s : String)
    (keygen : List KeyPairProperties) (net : NetworkConfig)
    (parse : String → Except String PublicKey)
    (verify : AccountId → PublicKey → Except VerificationError Unit)
    (events : List LoginIteration) (platform : Platform) (selection : Fin 2)
    (mb fb : Credential → Except String String) :
    (build_login_url w s).query = [("title", "NEAR CLI"), ("public_key", s)] ∧
    "success_url" ∉ (build_login_url w s).query.map Prod.fst ∧
    (build_login_url w s).path = (w.join "login/").path ∧
    login keygen net true parse verify events platform selection mb fb =
      login keygen net false parse verify events platform selection mb fb := by
  refine ⟨rfl, ?_, rfl, rfl⟩
  simp [build_login_url, Url.join, Url.append_pair]

/-- C6: the login loop treats every verification failure identically
regardless of error kind — only success versus failure matters — and it
never auto-retries: there is exactly one verification call per account id
entered, and every call beyond the first required a confirm-menu answer. -/
theorem verification_failures_uniform_no_autoretry
    (v₁ v₂ : AccountId → PublicKey → Except VerificationError Unit)
    (public_key : PublicKey) (events : List LoginIteration) :
    ((∀ id, v₁ id public_key = .ok () ↔ v₂ id public_key = .ok ()) →
      loginLoop v₁ public_key events = loginLoop v₂ public_key events) ∧
    (loginLoop v₁ public_key events).verify_calls =
      (loginLoop v₁ public_key events).entered_ids.map
        (fun id => (id, public_key)) ∧
    (loginLoop v₁ public_key events).verify_calls.length ≤
      (loginLoop v₁ public_key events).confirm_menus.length + 1 := by
  refine ⟨?_, loginLoop_verify_calls_eq v₁ public_key events,
    loginLoop_verify_calls_le v₁ public_key events⟩
  intro hiff
  induction events with
  | nil => rfl
  | cons ev rest ih =>
    simp only [loginLoop]
    cases h₁ : v₁ ev.account_id public_key with
    | ok u =>
      cases u
      rw [(hiff ev.account_id).mp h₁]
    | error e₁ =>
      cases h₂ : v₂ ev.account_id public_key with
      | ok u =>
        cases u
        exfalso
        have hok := (hiff ev.account_id).mpr h₂
        rw [h₁] at hok
        exact Except.noConfusion hok
      | error e₂ =>
        cases ev.choice with
        | no => rfl
        | yes => simp [ih]

/-- C6 witness: a verifier failing with `NotFound` and one failing with
`Transport` drive the loop identically. -/
theorem verification_failures_uniform_no_autoretry_witness :
    loginLoop (fun _ _ => Except.error .notFound) ⟨"pk"⟩ [⟨"alice", .no⟩] =
      loginLoop (fun _ _ => Except.error .transport) ⟨"pk"⟩ [⟨"alice", .no⟩] :=
  (verification_failures_uniform_no_autoretry
    (fun _ _ => Except.error .notFound) (fun _ _ => Except.error .transport)
    ⟨"pk"⟩ [⟨"alice", .no⟩]).1
    (fun _ => ⟨fun h => Except.noConfusion h, fun h => Except.noConfusion h⟩)

/-- C10: one login invocation generates exactly one key pair, and that pair
is used everywhere: in the authorization URL's `public_key` parameter, in
every verification call of every loop iteration, and in the persisted
credential — re-entering the account id never regenerates the key or
rebuilds the URL. -/
theorem single_keypair_used_throughout (kp : KeyPairProperties)
    (kgrest : List KeyPairProperties) (net : NetworkConfig) (bo : Bool)
    (parse : String → Except String PublicKey) (public_key : PublicKey)
    (verify : AccountId → PublicKey → Except VerificationError Unit)
    (events : List LoginIteration) (platform : Platform) (selection : Fin 2)
    (mb fb : Credential → Except String String) (tr : LoginTrace) :
    parse kp.public_key_str = .ok public_key →
    login (kp :: kgrest) net bo parse verify events platform selection mb
      fb = .ok tr →
    tr.keys_generated = 1 ∧
    tr.key_pair = kp ∧
    tr.url = build_login_url net.wallet_url kp.public_key_str ∧
    (∀ c ∈ tr.verify_calls, c.2 = public_key) ∧
    tr.persisted.key_pair = kp := by
  intro hparse hlogin
  simp only [login, hparse] at hlogin
  cases hres : (loginLoop verify public_key events).result with
  | none =>
    simp only [hres] at hlogin
    exact Except.noConfusion hlogin
  | some account_id =>
    simp only [hres] at hlogin
    cases hsave : save_access_key platform selection mb fb account_id kp with
    | error err =>
      simp only [hsave] at hlogin
      exact Except.noConfusion hlogin
    | ok pr =>
      obtain ⟨msg, menus⟩ := pr
      simp only [hsave] at hlogin
      cases hlogin
      refine ⟨rfl, rfl, rfl, ?_, rfl⟩
      intro c hc
      rw [loginLoop_verify_calls_eq verify public_key events] at hc
      obtain ⟨id, _, rfl⟩ := List.mem_map.mp hc
      rfl

/-- C10 witness: a concrete two-iteration login (first attempt fails, user
re-enters) uses the single generated key pair in the URL, in both
verification calls and in the persisted credential. -/
theorem single_keypair_used_throughout_witness :
    ∃ tr, login [⟨"ed25519:AA", "sk"⟩] ⟨⟨"https://wallet/", []⟩⟩ true
        (fun s => Except.ok ⟨s⟩)
        (fun id _ => if id = "bob.testnet" then Except.ok () else
          Except.error .notFound)
        [⟨"alice", .yes⟩, ⟨"bob.testnet", .no⟩] .other (1 : Fin 2)
        (fun _ => Except.ok "mac") (fun _ => Except.ok "saved") =
      Except.ok tr ∧
      tr.keys_generated = 1 ∧
      tr.key_pair = ⟨"ed25519:AA", "sk"⟩ ∧
      tr.url = build_login_url ⟨"https://wallet/", []⟩ "ed25519:AA" ∧
      (∀ c ∈ tr.verify_calls, c.2 = (⟨"ed25519:AA"⟩ : PublicKey)) ∧
      tr.persisted.key_pair = ⟨"ed25519:AA", "sk"⟩ := by
  refine ⟨⟨1, ⟨"ed25519:AA", "sk"⟩,
    ⟨"https://wallet/login/", [("title", "NEAR CLI"),
      ("public_key", "ed25519:AA")]⟩,
    [("alice", ⟨"ed25519:AA"⟩), ("bob.testnet", ⟨"ed25519:AA"⟩)],
    ["alice", "bob.testnet"],
    [["Yes, I want to re-enter the account_id.",
      "No, I want to save the access key information."]],
    ⟨"bob.testnet", ⟨"ed25519:AA", "sk"⟩⟩, "saved", []⟩, by rfl, ?_⟩
  exact single_keypair_used_throughout ⟨"ed25519:AA", "sk"⟩ []
    ⟨⟨"https://wallet/", []⟩⟩ true (fun s => Except.ok ⟨s⟩) ⟨"ed25519:AA"⟩
    (fun id _ => if id = "bob.testnet" then Except.ok () else
      Except.error .notFound)
    [⟨"alice", .yes⟩, ⟨"bob.testnet", .no⟩] .other (1 : Fin 2)
    (fun _ => Except.ok "mac") (fun _ => Except.ok "saved") _ rfl (by rfl)

end NearCli
